import Mathlib

/-
Shallow embedding of the dictation-session state machine of the
DictationApp class (src/static/js/app.js, src/unnamed/part_000,
src/unnamed/part_001).  JS numbers that are used as counters are
modelled as Nat; `null` fields as Option; a JS Set of indices as an
insertion-ordered duplicate-free List Nat; `Math.round((c/t)*100)` via
an exact model of binary64 (IEEE double) arithmetic, because the
intermediate division and multiplication round to 53-bit precision and
that is observable in the displayed accuracy; alert/toast calls as
appended message strings so that rejection paths are observable.
-/

namespace Dictation

/-- One quiz item: the target text (item.word or item.sentence in the
source), its meaning, and the kind tag (item.type). -/
structure QuizItem where
  text : String
  meaning : String
  type : String
  deriving Repr, DecidableEq, Inhabited

/-- One quiz result, created by spreading the item and adding
userAnswer and isCorrect (null modelled as none).  The part_001-only
checked flag is omitted: no claim mentions it and app.js results lack
it. -/
structure QuizResult where
  text : String
  meaning : String
  userAnswer : String
  isCorrect : Option Bool
  deriving Repr, DecidableEq, Inhabited

/-- One per-day statistics history entry, {date, correct, wrong}. -/
structure DayEntry where
  date : String
  correct : Nat
  wrong : Nat
  deriving Repr, DecidableEq, Inhabited

/-- The persisted statistics document: lifetime counters plus the
per-day history list. -/
structure Statistics where
  sessions : Nat
  correct : Nat
  wrong : Nat
  history : List DayEntry
  deriving Repr, DecidableEq, Inhabited

/-- A wrong-word book entry, as pushed by addWrongWord. -/
structure WrongWordEntry where
  word : String
  meaning : String
  userAnswer : String
  addedAt : String
  reviewCount : Nat
  deriving Repr, DecidableEq, Inhabited

/-- The mutable fields of the DictationApp controller that the session
state machine touches.  displayedAccuracy records the accuracy value
rendered by finishDictation; alerts records alert() messages. -/
structure AppState where
  words : List QuizItem
  sentences : List QuizItem
  items : List QuizItem
  results : List QuizResult
  currentIndex : Nat
  dictationMode : String
  autoPlay : Bool
  wrongWords : List WrongWordEntry
  statistics : Statistics
  displayedAccuracy : Nat
  alerts : List String
  deriving Repr, DecidableEq, Inhabited

/-- JS String.prototype.toLowerCase, restricted to the per-character
lowering Lean provides (ASCII letters; identical on the ASCII texts the
app compares). -/
def lowerStr (s : String) : String := ⟨s.data.map Char.toLower⟩

/-- JS String.prototype.trim: strip leading and trailing whitespace. -/
def trimStr (s : String) : String :=
  ⟨((s.data.dropWhile Char.isWhitespace).reverse.dropWhile Char.isWhitespace).reverse⟩

/-- Binary length of n (0 for 0), fuel-based so that the kernel can
evaluate it by structural recursion; fuel n suffices since a number
halves to 0 in at most n steps. -/
def bitsAux : Nat → Nat → Nat
  | 0, _ => 0
  | fuel + 1, n => if n = 0 then 0 else bitsAux fuel (n / 2) + 1

/-- Binary length of n: bits 0 = 0, bits 40 = 6. -/
def bits (n : Nat) : Nat := bitsAux n n

/-- The quotient n / d as a binary64 double (round to nearest, ties to
even, 53-bit significand), returned as a pair (m, e) denoting the exact
value m * 2 ^ e with 2 ^ 52 ≤ m < 2 ^ 53 (normal range; the counts the
app divides never reach the subnormal or overflow ranges), or (0, 0)
when n = 0.  This models the JS evaluation of `correct / total`. -/
def fpDiv53 (n d : Nat) : Nat × Int :=
  if n = 0 ∨ d = 0 then (0, 0) else
  let e0 : Int := (bits n : Int) - (bits d : Int) - 53
  let scale : Int → Nat × Nat := fun e =>
    if 0 ≤ e then (n, d * 2 ^ e.toNat) else (n * 2 ^ (-e).toNat, d)
  let p0 := scale e0
  let e := if 2 ^ 53 * p0.2 ≤ p0.1 then e0 + 1 else e0
  let p := scale e
  let q := p.1 / p.2
  let r := p.1 % p.2
  let m :=
    if p.2 < 2 * r then q + 1
    else if 2 * r = p.2 then (if q % 2 = 1 then q + 1 else q)
    else q
  if m = 2 ^ 53 then (2 ^ 52, e + 1) else (m, e)

/-- Multiplication of the double (m, e) by 100, rounded back to a
binary64 double (round to nearest, ties to even).  This models the JS
evaluation of `(correct / total) * 100`. -/
def fpMul100 (x : Nat × Int) : Nat × Int :=
  if x.1 = 0 then (0, 0) else
  let n := x.1 * 100
  let k := bits n - 53
  if k = 0 then (n, x.2) else
  let q := n / 2 ^ k
  let r := n % 2 ^ k
  let half := 2 ^ (k - 1)
  let m :=
    if half < r then q + 1
    else if r = half then (if q % 2 = 1 then q + 1 else q)
    else q
  if m = 2 ^ 53 then (2 ^ 52, x.2 + (k : Int) + 1) else (m, x.2 + (k : Int))

/-- Math.round on the non-negative double (m, e): per ECMA-262 the
integral Number closest to the exact value m * 2 ^ e, ties toward
positive infinity. -/
def fpRound (x : Nat × Int) : Nat :=
  if 0 ≤ x.2 then x.1 * 2 ^ x.2.toNat
  else
    let s := (-x.2).toNat
    (x.1 + 2 ^ (s - 1)) / 2 ^ s

/-- Math.round((c / t) * 100) for t > 0, exactly as JS computes it:
c / t rounded to binary64, times 100 rounded to binary64, then
Math.round on the resulting double.  This differs from rounding the
exact rational 100*c/t at half-boundary inputs: at c = 23, t = 40 the
double product is 57.49999999999999289, so the program displays 57
where exact rational rounding would give 58. -/
def jsRound100 (c t : Nat) : Nat := fpRound (fpMul100 (fpDiv53 c t))

lemma jsRound100_binary64_boundary :
    jsRound100 23 40 = 57 ∧ (200 * 23 + 40) / (2 * 40) = 58 := ⟨rfl, rfl⟩

/-- results.filter(r => r.isCorrect === true).length. -/
def countCorrect (rs : List QuizResult) : Nat :=
  (rs.filter fun r => r.isCorrect == some true).length

/-- results.filter(r => r.isCorrect === false).length. -/
def countIncorrect (rs : List QuizResult) : Nat :=
  (rs.filter fun r => r.isCorrect == some false).length

/-- The accuracy finishDictation computes (both app.js and part_001):
total > 0 ? Math.round((correct / total) * 100) : 0 with
total = results.length, evaluated in binary64 via jsRound100. -/
def accuracyOf (rs : List QuizResult) : Nat :=
  if rs.length = 0 then 0 else jsRound100 (countCorrect rs) rs.length

/-- Modelled from the spec wording, for comparison with accuracyOf:
round(correct/(correct+incorrect) * 100), 0 when correct+incorrect = 0.
It uses the same binary64 evaluation jsRound100, so any difference from
accuracyOf is due purely to the denominator the spec names. -/
def accuracySpec (rs : List QuizResult) : Nat :=
  if countCorrect rs + countIncorrect rs = 0 then 0
  else jsRound100 (countCorrect rs) (countCorrect rs + countIncorrect rs)

/-- Array.prototype.find followed by in-place mutation of the found
entry: rewrite the first entry satisfying p with f, keep the rest. -/
def updateFirst (p : DayEntry → Bool) (f : DayEntry → DayEntry) :
    List DayEntry → List DayEntry
  | [] => []
  | x :: xs => if p x then f x :: xs else x :: updateFirst p f xs

/-- recordSession(correct, wrong) from app.js:1201 / part_001:159.
today is the Date().toDateString() string.  Increments the lifetime
counters, merges into the first history entry with date === today or
appends a new entry, then keeps only the last 30 entries
(history.slice(-30)) when length exceeds 30. -/
def recordSession (today : String) (c w : Nat) (st : Statistics) : Statistics :=
  let hist1 :=
    if st.history.any (fun h => h.date == today) then
      updateFirst (fun h => h.date == today)
        (fun h => { h with correct := h.correct + c, wrong := h.wrong + w })
        st.history
    else
      st.history ++ [⟨today, c, w⟩]
  let hist2 := if 30 < hist1.length then hist1.drop (hist1.length - 30) else hist1
  { sessions := st.sessions + 1, correct := st.correct + c,
    wrong := st.wrong + w, history := hist2 }

/-- addWrongWord(word, meaning, userAnswer) from app.js:1247 /
part_001:217.  now is the Date().toISOString() string.  If an entry
with case-insensitively equal text exists the list is left untouched,
otherwise a fresh entry with reviewCount 0 is pushed. -/
def addWrongWord (now word meaning userAnswer : String)
    (l : List WrongWordEntry) : List WrongWordEntry :=
  if l.any (fun e => lowerStr e.word == lowerStr word) then l
  else l ++ [{ word := word, meaning := meaning, userAnswer := userAnswer,
               addedAt := now, reviewCount := 0 }]

/-- The item lists built by startDictation(mode) in part_001:603. -/
def modeItems (mode : String) (st : AppState) : List QuizItem :=
  if mode == "words" then st.words else st.sentences

/-- Fresh results for a new session: one per item, spreading the item
and adding an empty userAnswer and isCorrect null. -/
def initResults (items : List QuizItem) : List QuizResult :=
  items.map fun it =>
    { text := it.text, meaning := it.meaning, userAnswer := "", isCorrect := none }

/-- startDictation(mode) from part_001:601.  Note the source assigns
this.dictationMode and this.items BEFORE the emptiness check, so a
rejected start still overwrites those two fields.  The rejection alert
is recorded in alerts.  TTS generation and DOM updates are external
effects and are not part of the state. -/
def startDictation (mode : String) (st : AppState) : AppState :=
  let st1 := { st with dictationMode := mode, items := modeItems mode st }
  if st1.items.length = 0 then
    { st1 with alerts := st1.alerts ++ ["沒有可用的項目！"] }
  else
    { st1 with currentIndex := 0, results := initResults st1.items }

/-- startDictationFromSelection from app.js:618.  The selectedItems
argument stands for the list the source builds from
selectedWordIndices/selectedSentenceIndices over allWords/allSentences
(pure per-item projection plus TTS-cache lookup, in selection order).
The emptiness check happens before any field of this is written. -/
def startDictationFromSelection (selectedItems : List QuizItem)
    (st : AppState) : AppState :=
  match selectedItems with
  | [] => { st with alerts := st.alerts ++ ["請至少選擇一項！"] }
  | it :: _ =>
      { st with items := selectedItems, currentIndex := 0,
                dictationMode := it.type,
                results := initResults selectedItems }

/-- prevItem from app.js:850 (playPrev in part_001:800). -/
def prevItem (st : AppState) : AppState :=
  if 0 < st.currentIndex then { st with currentIndex := st.currentIndex - 1 } else st

/-- nextItem from app.js:857 (playNext in part_001:807). -/
def nextItem (st : AppState) : AppState :=
  if st.currentIndex < st.items.length - 1 then
    { st with currentIndex := st.currentIndex + 1 }
  else st

/-- onAudioEnded from part_001:814: with auto-play on and items left,
advance the cursor and start the next playback. -/
def onAudioEnded (st : AppState) : AppState :=
  if st.autoPlay ∧ st.currentIndex < st.items.length - 1 then
    { st with currentIndex := st.currentIndex + 1 }
  else st

/-- finishDictation from app.js:1048 / part_001:863: counts correct and
incorrect results, computes accuracy over results.length, records the
session into statistics and renders the accuracy.  The practice-history
POST and DOM rendering are external effects. -/
def finishDictation (today : String) (st : AppState) : AppState :=
  { st with
    statistics :=
      recordSession today (countCorrect st.results) (countIncorrect st.results)
        st.statistics,
    displayedAccuracy := accuracyOf st.results }

/-- markAnswer(isCorrect) from app.js:1016.  Writes isCorrect and the
userAnswer (empty answer replaced by the no-answer sentinel) into the
current result, upserts a wrong word when incorrect, then - after the
UI flash timeout - advances the cursor, or calls finishDictation when
the cursor is on the last item.  Out-of-range cursor access (the source
would throw on undefined) yields none. -/
def markAnswer (today now : String) (isCorrect : Bool) (st : AppState) :
    Option AppState :=
  match st.results[st.currentIndex]? with
  | none => none
  | some r0 =>
      let r1 := { r0 with isCorrect := some isCorrect,
                          userAnswer := if r0.userAnswer = "" then "未作答" else r0.userAnswer }
      let st1 := { st with results := st.results.set st.currentIndex r1 }
      let st2 :=
        if isCorrect then st1
        else { st1 with
               wrongWords := addWrongWord now r1.text r1.meaning r1.userAnswer st1.wrongWords }
      if st2.currentIndex < st2.items.length - 1 then
        some { st2 with currentIndex := st2.currentIndex + 1 }
      else
        some (finishDictation today st2)

/-- markAnswer(isCorrect) from part_001:838 / part_000:479: writes
isCorrect into the current result (no sentinel answer, no wrong-word
upsert in this variant), then advances or finishes. -/
def markAnswerP1 (today : String) (isCorrect : Bool) (st : AppState) :
    Option AppState :=
  match st.results[st.currentIndex]? with
  | none => none
  | some r0 =>
      let st1 := { st with
                   results := st.results.set st.currentIndex
                     { r0 with isCorrect := some isCorrect } }
      if st1.currentIndex < st1.items.length - 1 then
        some { st1 with currentIndex := st1.currentIndex + 1 }
      else
        some (finishDictation today st1)

/-- checkAnswer from part_000:467 / part_001:827: trims the typed
input, records it as the current userAnswer, auto-determines
correctness by case-insensitive comparison with the target text
(item.word || item.sentence), and proceeds as markAnswer. -/
def checkAnswer (today input : String) (st : AppState) : Option AppState :=
  match st.results[st.currentIndex]?, st.items[st.currentIndex]? with
  | some r0, some item =>
      let answer := trimStr input
      let st1 := { st with
                   results := st.results.set st.currentIndex
                     { r0 with userAnswer := answer } }
      markAnswerP1 today (lowerStr answer == lowerStr item.text) st1
  | _, _ => none

/-- practiceWrongWords from app.js:1309 / part_001:928: requires a
non-empty wrong-word list, rebuilds items from it, increments every
reviewCount, resets the cursor and creates fresh results. -/
def practiceWrongWords (st : AppState) : AppState :=
  if st.wrongWords.length = 0 then st
  else
    let newItems := st.wrongWords.map fun w =>
      { text := w.word, meaning := w.meaning, type := "word" : QuizItem }
    { st with items := newItems,
              wrongWords := st.wrongWords.map fun w =>
                { w with reviewCount := w.reviewCount + 1 },
              currentIndex := 0,
              results := initResults newItems }

/-- The selection cap displayed and (in app.js) enforced per content
kind: maxWordSelection / maxSentenceSelection, 2 for a guest and 20
once logged in (app.js:29, app.js:81, part_000:1515, part_000:1568). -/
def capFor (isLoggedIn : Bool) : Nat := if isLoggedIn then 20 else 2

/-- toggleWordSelection / toggleSentenceSelection from app.js:511: the
JS Set of selected indices is modelled as its insertion-ordered
duplicate-free list.  Toggling off erases; toggling on at the cap first
deletes the oldest selection (set.values().next().value, the head) and
then appends. -/
def toggleSelectionEvict (cap index : Nat) (sel : List Nat) : List Nat :=
  if sel.contains index then sel.erase index
  else if cap ≤ sel.length then sel.drop 1 ++ [index]
  else sel ++ [index]

/-- toggleWordSelection / toggleSentenceSelection from part_000:2493:
toggling on is refused with a toast (second component true) when the
caller is not logged in and already holds 2 selections; a logged-in
caller is never size-checked in this variant. -/
def toggleSelectionReject (isLoggedIn : Bool) (index : Nat) (sel : List Nat) :
    List Nat × Bool :=
  if sel.contains index then (sel.erase index, false)
  else if isLoggedIn = false ∧ 2 ≤ sel.length then (sel, true)
  else (sel ++ [index], false)

/-- A convenient all-empty controller state for concrete scenarios. -/
def baseState : AppState :=
  { words := [], sentences := [], items := [], results := [],
    currentIndex := 0, dictationMode := "", autoPlay := false,
    wrongWords := [], statistics := ⟨0, 0, 0, []⟩,
    displayedAccuracy := 0, alerts := [] }

/-- A one-word item used by concrete scenarios. -/
def catItem : QuizItem := { text := "cat", meaning := "", type := "word" }

/-- A second one-word item used by concrete scenarios. -/
def dogItem : QuizItem := { text := "dog", meaning := "", type := "word" }

lemma length_updateFirst (p : DayEntry → Bool) (f : DayEntry → DayEntry)
    (l : List DayEntry) : (updateFirst p f l).length = l.length := by
  induction l with
  | nil => rfl
  | cons x xs ih =>
      simp only [updateFirst]
      split <;> simp [ih]

lemma answered_count (rs : List QuizResult)
    (h : ∀ r ∈ rs, r.isCorrect ≠ none) :
    countCorrect rs + countIncorrect rs = rs.length := by
  induction rs with
  | nil => rfl
  | cons r rs ih =>
      have hr : r.isCorrect ≠ none := h r (List.mem_cons_self r rs)
      have ih2 := ih fun x hx => h x (List.mem_cons_of_mem r hx)
      match hb : r.isCorrect with
      | none => exact absurd hb hr
      | some true =>
          simp only [countCorrect, countIncorrect, List.filter_cons, hb] at ih2 ⊢
          norm_num
          omega
      | some false =>
          simp only [countCorrect, countIncorrect, List.filter_cons, hb] at ih2 ⊢
          norm_num
          omega

lemma initResults_length (items : List QuizItem) :
    (initResults items).length = items.length := by
  simp [initResults]

lemma initResults_mem (items : List QuizItem) (r : QuizResult)
    (hr : r ∈ initResults items) : r.userAnswer = "" ∧ r.isCorrect = none := by
  simp only [initResults, List.mem_map] at hr
  obtain ⟨it, _, rfl⟩ := hr
  exact ⟨rfl, rfl⟩

/-- C1: for every non-empty selected/filtered item list, starting a
dictation session (both the part_001 startDictation and the app.js
startDictationFromSelection variant) initializes currentIndex to 0 and
one result per item, each with empty userAnswer and isCorrect null. -/
theorem startDictation_initializes (st : AppState) (mode : String)
    (selectedItems : List QuizItem)
    (h1 : modeItems mode st ≠ []) (h2 : selectedItems ≠ []) :
    ((startDictation mode st).currentIndex = 0
      ∧ (startDictation mode st).results.length = (startDictation mode st).items.length
      ∧ ∀ r ∈ (startDictation mode st).results, r.userAnswer = "" ∧ r.isCorrect = none)
    ∧ ((startDictationFromSelection selectedItems st).currentIndex = 0
      ∧ (startDictationFromSelection selectedItems st).results.length = selectedItems.length
      ∧ ∀ r ∈ (startDictationFromSelection selectedItems st).results,
          r.userAnswer = "" ∧ r.isCorrect = none) := by
  constructor
  · have hlen : (modeItems mode st).length ≠ 0 := by
      simpa [List.length_eq_zero] using h1
    refine ⟨?_, ?_, ?_⟩
    · simp [startDictation, hlen]
    · simp [startDictation, hlen, initResults_length]
    · intro r hr
      refine initResults_mem (modeItems mode st) r ?_
      simpa [startDictation, hlen] using hr
  · match selectedItems, h2 with
    | it :: rest, _ =>
        refine ⟨rfl, ?_, ?_⟩
        · simp [startDictationFromSelection, initResults_length]
        · intro r hr
          refine initResults_mem (it :: rest) r ?_
          simpa [startDictationFromSelection] using hr

/-- Witness for C1 at a concrete one-word state. -/
theorem startDictation_initializes_witness :
    (modeItems "words" { baseState with words := [catItem] } ≠ []
      ∧ ([catItem] : List QuizItem) ≠ [])
    ∧ (((startDictation "words" { baseState with words := [catItem] }).currentIndex = 0
      ∧ (startDictation "words" { baseState with words := [catItem] }).results.length
          = (startDictation "words" { baseState with words := [catItem] }).items.length
      ∧ ∀ r ∈ (startDictation "words" { baseState with words := [catItem] }).results,
          r.userAnswer = "" ∧ r.isCorrect = none)
    ∧ ((startDictationFromSelection [catItem] { baseState with words := [catItem] }).currentIndex = 0
      ∧ (startDictationFromSelection [catItem] { baseState with words := [catItem] }).results.length
          = ([catItem] : List QuizItem).length
      ∧ ∀ r ∈ (startDictationFromSelection [catItem] { baseState with words := [catItem] }).results,
          r.userAnswer = "" ∧ r.isCorrect = none)) :=
  ⟨⟨by decide, by decide⟩,
    startDictation_initializes { baseState with words := [catItem] } "words" [catItem]
      (by decide) (by decide)⟩

/-- The state right after markAnswer wrote the current result (and the
wrong-word upsert when incorrect), before the cursor advances: a proof
layer name for the intermediate st1/st2 of markAnswer. -/
def markedState (t : String) (c : Bool) (st : AppState) : AppState :=
  let r0 := st.results[st.currentIndex]!
  let r1 : QuizResult :=
    { r0 with isCorrect := some c,
              userAnswer := if r0.userAnswer = "" then "未作答" else r0.userAnswer }
  let st1 := { st with results := st.results.set st.currentIndex r1 }
  if c then st1
  else { st1 with
         wrongWords := addWrongWord t r1.text r1.meaning r1.userAnswer st1.wrongWords }

lemma markedState_items (t : String) (c : Bool) (st : AppState) :
    (markedState t c st).items = st.items := by
  unfold markedState
  split <;> rfl

lemma markedState_currentIndex (t : String) (c : Bool) (st : AppState) :
    (markedState t c st).currentIndex = st.currentIndex := by
  unfold markedState
  split <;> rfl

lemma markedState_results_length (t : String) (c : Bool) (st : AppState) :
    (markedState t c st).results.length = st.results.length := by
  unfold markedState
  split <;> simp

lemma markedState_statistics (t : String) (c : Bool) (st : AppState) :
    (markedState t c st).statistics = st.statistics := by
  unfold markedState
  split <;> rfl

lemma finishDictation_currentIndex (d : String) (st : AppState) :
    (finishDictation d st).currentIndex = st.currentIndex := rfl

lemma finishDictation_items (d : String) (st : AppState) :
    (finishDictation d st).items = st.items := rfl

lemma finishDictation_results (d : String) (st : AppState) :
    (finishDictation d st).results = st.results := rfl

lemma finishDictation_sessions (d : String) (st : AppState) :
    (finishDictation d st).statistics.sessions = st.statistics.sessions + 1 := rfl

lemma markAnswer_eq (st : AppState) (d t : String) (c : Bool)
    (hres : st.currentIndex < st.results.length) :
    markAnswer d t c st =
      if st.currentIndex < st.items.length - 1 then
        some { markedState t c st with currentIndex := st.currentIndex + 1 }
      else
        some (finishDictation d (markedState t c st)) := by
  have hg : st.results[st.currentIndex]? = some st.results[st.currentIndex]! := by
    rw [getElem!_pos st.results st.currentIndex hres]
    exact List.getElem?_eq_getElem hres
  by_cases hc : c
  · simp only [markAnswer, hg, markedState, hc, if_true]
  · simp only [markAnswer, hg, markedState, hc, if_false, Bool.false_eq_true]

/-- C4: with a non-empty item list and the cursor in range, every quiz
operation (prev, next, auto-advance on audio end, mark answer) keeps
0 <= currentIndex < items.length; prev at 0 and next at the last index
are no-ops, and otherwise prev/next move the cursor by exactly one. -/
theorem cursor_invariant (st : AppState) (d t : String) (c : Bool)
    (_hn : st.items ≠ []) (hi : st.currentIndex < st.items.length) :
    ((prevItem st).currentIndex < (prevItem st).items.length
      ∧ (nextItem st).currentIndex < (nextItem st).items.length
      ∧ (onAudioEnded st).currentIndex < (onAudioEnded st).items.length
      ∧ ∀ st', markAnswer d t c st = some st' →
          st'.currentIndex < st'.items.length)
    ∧ (st.currentIndex = 0 → prevItem st = st)
    ∧ (st.currentIndex = st.items.length - 1 → nextItem st = st)
    ∧ (0 < st.currentIndex → (prevItem st).currentIndex = st.currentIndex - 1)
    ∧ (st.currentIndex < st.items.length - 1 →
        (nextItem st).currentIndex = st.currentIndex + 1) := by
  refine ⟨⟨?_, ?_, ?_, ?_⟩, ?_, ?_, ?_, ?_⟩
  · by_cases h : 0 < st.currentIndex
    · rw [prevItem, if_pos h]
      show st.currentIndex - 1 < st.items.length
      omega
    · rw [prevItem, if_neg h]
      exact hi
  · by_cases h : st.currentIndex < st.items.length - 1
    · rw [nextItem, if_pos h]
      show st.currentIndex + 1 < st.items.length
      omega
    · rw [nextItem, if_neg h]
      exact hi
  · by_cases h : st.autoPlay = true ∧ st.currentIndex < st.items.length - 1
    · rw [onAudioEnded, if_pos h]
      show st.currentIndex + 1 < st.items.length
      omega
    · rw [onAudioEnded, if_neg h]
      exact hi
  · intro st' h
    rcases em (st.currentIndex < st.results.length) with hres | hres
    · rw [markAnswer_eq st d t c hres] at h
      by_cases hlt : st.currentIndex < st.items.length - 1
      · rw [if_pos hlt] at h
        injection h with h
        subst h
        show st.currentIndex + 1 <
          ({ markedState t c st with currentIndex := st.currentIndex + 1 }).items.length
        have : ({ markedState t c st with
            currentIndex := st.currentIndex + 1 }).items = st.items := by
          show (markedState t c st).items = st.items
          exact markedState_items t c st
        rw [this]
        omega
      · rw [if_neg hlt] at h
        injection h with h
        subst h
        rw [finishDictation_currentIndex, finishDictation_items,
          markedState_currentIndex, markedState_items]
        exact hi
    · exfalso
      have hnone : st.results[st.currentIndex]? = none :=
        List.getElem?_eq_none (Nat.le_of_not_lt hres)
      simp only [markAnswer, hnone] at h
      exact Option.noConfusion h
  · intro h0
    rw [prevItem, if_neg (by omega)]
  · intro hlast
    rw [nextItem, if_neg (by omega)]
  · intro hpos
    rw [prevItem, if_pos hpos]
  · intro hlt
    rw [nextItem, if_pos hlt]

/-- Witness for C4 at a concrete two-item state with the cursor at 0. -/
theorem cursor_invariant_witness :
    (startDictation "words" { baseState with words := [catItem, dogItem] }).items ≠ []
    ∧ (startDictation "words" { baseState with words := [catItem, dogItem] }).currentIndex
        < (startDictation "words" { baseState with words := [catItem, dogItem] }).items.length
    ∧ (((prevItem (startDictation "words" { baseState with words := [catItem, dogItem] })).currentIndex
          < (prevItem (startDictation "words" { baseState with words := [catItem, dogItem] })).items.length
        ∧ (nextItem (startDictation "words" { baseState with words := [catItem, dogItem] })).currentIndex
          < (nextItem (startDictation "words" { baseState with words := [catItem, dogItem] })).items.length
        ∧ (onAudioEnded (startDictation "words" { baseState with words := [catItem, dogItem] })).currentIndex
          < (onAudioEnded (startDictation "words" { baseState with words := [catItem, dogItem] })).items.length
        ∧ ∀ st', markAnswer "d" "t" true (startDictation "words" { baseState with words := [catItem, dogItem] }) = some st' →
            st'.currentIndex < st'.items.length)
      ∧ ((startDictation "words" { baseState with words := [catItem, dogItem] }).currentIndex = 0 →
          prevItem (startDictation "words" { baseState with words := [catItem, dogItem] })
            = startDictation "words" { baseState with words := [catItem, dogItem] })
      ∧ ((startDictation "words" { baseState with words := [catItem, dogItem] }).currentIndex
            = (startDictation "words" { baseState with words := [catItem, dogItem] }).items.length - 1 →
          nextItem (startDictation "words" { baseState with words := [catItem, dogItem] })
            = startDictation "words" { baseState with words := [catItem, dogItem] })
      ∧ (0 < (startDictation "words" { baseState with words := [catItem, dogItem] }).currentIndex →
          (prevItem (startDictation "words" { baseState with words := [catItem, dogItem] })).currentIndex
            = (startDictation "words" { baseState with words := [catItem, dogItem] }).currentIndex - 1)
      ∧ ((startDictation "words" { baseState with words := [catItem, dogItem] }).currentIndex
            < (startDictation "words" { baseState with words := [catItem, dogItem] }).items.length - 1 →
          (nextItem (startDictation "words" { baseState with words := [catItem, dogItem] })).currentIndex
            = (startDictation "words" { baseState with words := [catItem, dogItem] }).currentIndex + 1)) :=
  ⟨by decide, by decide,
    cursor_invariant (startDictation "words" { baseState with words := [catItem, dogItem] })
      "d" "t" true (by decide) (by decide)⟩

/-- C3 counterexample: in a started one-item session, marking the last
(only) answer finishes the session and records it (sessions becomes 1);
invoking markAnswer again is neither a no-op nor blocked - it runs
finishDictation a second time and the sessions counter becomes 2, so
statistics for the same session are recorded twice. -/
theorem markAnswer_after_finish_cex :
    ((markAnswer "d" "t" true
        (startDictation "words" { baseState with words := [catItem] })).map
      fun s => s.statistics.sessions) = some 1
    ∧ (((markAnswer "d" "t" true
        (startDictation "words" { baseState with words := [catItem] })).bind
          (markAnswer "d" "t" true)).map
      fun s => s.statistics.sessions) = some 2 := ⟨rfl, rfl⟩

/-- C3 amended: marking the answer with the cursor on the last item
always runs finishDictation and records a session into statistics, on
every invocation: the code keeps no Finished flag, so the call is
never a no-op - it increments statistics.sessions by one each time
while leaving the cursor on the last item, which is why a repeated
invocation records the same session again (only the UI page switch
hides the buttons). -/
theorem markAnswer_last_records_every_time (st : AppState) (d t : String)
    (c : Bool) (hidx : st.currentIndex = st.items.length - 1)
    (hres : st.currentIndex < st.results.length) :
    ∃ st', markAnswer d t c st = some st'
      ∧ st'.statistics.sessions = st.statistics.sessions + 1
      ∧ st'.currentIndex = st.currentIndex
      ∧ st'.results.length = st.results.length
      ∧ st'.items = st.items := by
  have hnlt : ¬ st.currentIndex < st.items.length - 1 := by omega
  refine ⟨finishDictation d (markedState t c st), ?_, ?_, ?_, ?_, ?_⟩
  · rw [markAnswer_eq st d t c hres, if_neg hnlt]
  · rw [finishDictation_sessions, markedState_statistics]
  · rw [finishDictation_currentIndex, markedState_currentIndex]
  · rw [finishDictation_results, markedState_results_length]
  · rw [finishDictation_items, markedState_items]

/-- Witness for the amended C3 at a concrete started one-item state. -/
theorem markAnswer_last_records_every_time_witness :
    ((startDictation "words" { baseState with words := [catItem] }).currentIndex
        = (startDictation "words" { baseState with words := [catItem] }).items.length - 1
      ∧ (startDictation "words" { baseState with words := [catItem] }).currentIndex
        < (startDictation "words" { baseState with words := [catItem] }).results.length)
    ∧ ∃ st', markAnswer "d" "t" true
          (startDictation "words" { baseState with words := [catItem] }) = some st'
        ∧ st'.statistics.sessions
            = (startDictation "words" { baseState with words := [catItem] }).statistics.sessions + 1
        ∧ st'.currentIndex
            = (startDictation "words" { baseState with words := [catItem] }).currentIndex
        ∧ st'.results.length
            = (startDictation "words" { baseState with words := [catItem] }).results.length
        ∧ st'.items = (startDictation "words" { baseState with words := [catItem] }).items :=
  ⟨⟨by decide, by decide⟩,
    markAnswer_last_records_every_time
      (startDictation "words" { baseState with words := [catItem] }) "d" "t" true
      (by decide) (by decide)⟩

/-- C2 counterexample: a reachable finished two-item session in which
the first item was skipped (navigated past without answering) and the
second marked correct.  The accuracy reported by finishDictation is
round(1/2*100) = 50, while the formula of the claim,
round(correct/(correct+incorrect)*100), gives round(1/1*100) = 100. -/
theorem finish_accuracy_cex :
    ((markAnswer "d" "t" true (nextItem
        (startDictation "words" { baseState with words := [catItem, dogItem] }))).map
      fun s => s.displayedAccuracy) = some 50
    ∧ ((markAnswer "d" "t" true (nextItem
        (startDictation "words" { baseState with words := [catItem, dogItem] }))).map
      fun s => accuracySpec s.results) = some 100
    ∧ ((markAnswer "d" "t" true (nextItem
        (startDictation "words" { baseState with words := [catItem, dogItem] }))).map
      fun s => s.displayedAccuracy)
      ≠ ((markAnswer "d" "t" true (nextItem
        (startDictation "words" { baseState with words := [catItem, dogItem] }))).map
      fun s => accuracySpec s.results) := ⟨rfl, rfl, by decide⟩

/-- C2 amended: the accuracy reported at session end is
round(correct/total*100) with total = results.length (0 when the result
list is empty); it agrees with round(correct/(correct+incorrect)*100)
exactly on sessions in which every result was answered (no isCorrect
left null). -/
theorem finish_accuracy (st : AppState) (today : String)
    (h : ∀ r ∈ st.results, r.isCorrect ≠ none) :
    (finishDictation today st).displayedAccuracy
        = (if st.results.length = 0 then 0
           else jsRound100 (countCorrect st.results) st.results.length)
    ∧ (finishDictation today st).displayedAccuracy = accuracySpec st.results := by
  have hfin : (finishDictation today st).displayedAccuracy = accuracyOf st.results := rfl
  have hsum := answered_count st.results h
  constructor
  · rw [hfin]
    rfl
  · rw [hfin]
    unfold accuracyOf accuracySpec
    rw [hsum]

/-- Witness for the amended C2 at a concrete fully-answered result
list. -/
theorem finish_accuracy_witness :
    (∀ r ∈ ({ baseState with
        results := [{ text := "cat", meaning := "", userAnswer := "cat",
                      isCorrect := some true }] } : AppState).results,
      r.isCorrect ≠ none)
    ∧ ((finishDictation "d" { baseState with
          results := [{ text := "cat", meaning := "", userAnswer := "cat",
                        isCorrect := some true }] }).displayedAccuracy
        = (if ({ baseState with
              results := [{ text := "cat", meaning := "", userAnswer := "cat",
                            isCorrect := some true }] } : AppState).results.length = 0 then 0
           else jsRound100
             (countCorrect ({ baseState with
                results := [{ text := "cat", meaning := "", userAnswer := "cat",
                              isCorrect := some true }] } : AppState).results)
             ({ baseState with
                results := [{ text := "cat", meaning := "", userAnswer := "cat",
                              isCorrect := some true }] } : AppState).results.length)
      ∧ (finishDictation "d" { baseState with
            results := [{ text := "cat", meaning := "", userAnswer := "cat",
                          isCorrect := some true }] }).displayedAccuracy
          = accuracySpec ({ baseState with
              results := [{ text := "cat", meaning := "", userAnswer := "cat",
                            isCorrect := some true }] } : AppState).results) :=
  ⟨by decide,
    finish_accuracy { baseState with
      results := [{ text := "cat", meaning := "", userAnswer := "cat",
                    isCorrect := some true }] } "d" (by decide)⟩

/-- C5 counterexample: in the part_000 (reject) variant, a logged-in
user holding the 20 distinct selections 0..19 can toggle index 20 on:
no size check fires (the guard tests only unauthenticated callers), no
notice is shown, and the selection count reaches 21, exceeding the
authenticated cap of 20 that the same file sets and displays. -/
theorem selection_cap_cex :
    capFor true < (toggleSelectionReject true 20 (List.range 20)).1.length
    ∧ (toggleSelectionReject true 20 (List.range 20)).2 = false
    ∧ (toggleSelectionReject true 20 (List.range 20)).1 = List.range 21 := by
  refine ⟨by decide, by decide, by decide⟩

/-- C5 amended: the app.js (evict) variant does keep the per-kind
selection count within the cap for the current authentication state,
admitting an over-cap toggle by evicting the oldest selection; the
part_000 (reject) variant enforces only the unauthenticated cap of 2,
rejecting with a notice and leaving the selection unchanged, while a
logged-in caller is not size-limited there. -/
theorem toggle_caps (b : Bool) (i : Nat) (sel : List Nat)
    (h2 : sel.length ≤ capFor b) :
    (toggleSelectionEvict (capFor b) i sel).length ≤ capFor b
    ∧ (capFor b ≤ sel.length → sel.contains i = false →
        toggleSelectionEvict (capFor b) i sel = sel.drop 1 ++ [i])
    ∧ (sel.length ≤ 2 → (toggleSelectionReject false i sel).1.length ≤ 2)
    ∧ (2 ≤ sel.length → sel.contains i = false →
        toggleSelectionReject false i sel = (sel, true)) := by
  have hcap1 : 1 ≤ capFor b := by cases b <;> simp [capFor]
  refine ⟨?_, ?_, ?_, ?_⟩
  · by_cases hcon : sel.contains i = true
    · rw [toggleSelectionEvict, if_pos hcon]
      have := List.length_erase i sel
      rw [this]
      split <;> omega
    · rw [toggleSelectionEvict, if_neg hcon]
      by_cases hge : capFor b ≤ sel.length
      · rw [if_pos hge]
        simp only [List.length_append, List.length_drop, List.length_cons,
          List.length_nil]
        omega
      · rw [if_neg hge]
        simp only [List.length_append, List.length_cons, List.length_nil]
        omega
  · intro hge hconf
    rw [toggleSelectionEvict,
      if_neg (by rw [hconf]; exact Bool.false_ne_true), if_pos hge]
  · intro hle
    by_cases hcon : sel.contains i = true
    · rw [toggleSelectionReject, if_pos hcon]
      have := List.length_erase i sel
      simp only
      rw [this]
      split <;> omega
    · rw [toggleSelectionReject, if_neg hcon]
      by_cases hge : 2 ≤ sel.length
      · rw [if_pos ⟨rfl, hge⟩]
        exact hle
      · rw [if_neg (by simp [hge])]
        simp only [List.length_append, List.length_cons, List.length_nil]
        omega
  · intro hge hconf
    rw [toggleSelectionReject,
      if_neg (by rw [hconf]; exact Bool.false_ne_true), if_pos ⟨rfl, hge⟩]

/-- Witness for the amended C5 at a concrete guest selection of size
two. -/
theorem toggle_caps_witness :
    (([5, 7] : List Nat).length ≤ capFor false)
    ∧ ((toggleSelectionEvict (capFor false) 2 [5, 7]).length ≤ capFor false
      ∧ (capFor false ≤ ([5, 7] : List Nat).length → ([5, 7] : List Nat).contains 2 = false →
          toggleSelectionEvict (capFor false) 2 [5, 7] = ([5, 7] : List Nat).drop 1 ++ [2])
      ∧ (([5, 7] : List Nat).length ≤ 2 → (toggleSelectionReject false 2 [5, 7]).1.length ≤ 2)
      ∧ (2 ≤ ([5, 7] : List Nat).length → ([5, 7] : List Nat).contains 2 = false →
          toggleSelectionReject false 2 [5, 7] = ([5, 7], true))) :=
  ⟨by decide, toggle_caps false 2 [5, 7] (by decide)⟩

/-- C7: the wrong-word upsert is keyed by case-insensitive text
equality: when a case-insensitively matching entry exists, the list is
returned untouched (no second entry, no meaning/answer update), the
upsert is idempotent under repeated case-insensitively equal text, and
it preserves the invariant that no two entries have case-insensitively
equal text. -/
theorem addWrongWord_dedup (now1 now2 m m2 a a2 w w2 : String)
    (l : List WrongWordEntry) :
    ((l.any fun e => lowerStr e.word == lowerStr w) = true →
        addWrongWord now1 w m a l = l)
    ∧ (lowerStr w2 = lowerStr w →
        addWrongWord now2 w2 m2 a2 (addWrongWord now1 w m a l)
          = addWrongWord now1 w m a l)
    ∧ (l.Pairwise (fun e1 e2 => lowerStr e1.word ≠ lowerStr e2.word) →
        (addWrongWord now1 w m a l).Pairwise
          (fun e1 e2 => lowerStr e1.word ≠ lowerStr e2.word)) := by
  refine ⟨?_, ?_, ?_⟩
  · intro h
    rw [addWrongWord, if_pos h]
  · intro hw
    by_cases h : (l.any fun e => lowerStr e.word == lowerStr w) = true
    · have h1 : addWrongWord now1 w m a l = l := by
        rw [addWrongWord, if_pos h]
      rw [h1]
      simp [addWrongWord, hw, h]
    · have hfalse : (l.any fun e => lowerStr e.word == lowerStr w) = false :=
        Bool.eq_false_iff.mpr h
      simp [addWrongWord, hw, hfalse, List.any_append]
  · intro hp
    by_cases h : (l.any fun e => lowerStr e.word == lowerStr w) = true
    · rw [addWrongWord, if_pos h]
      exact hp
    · rw [addWrongWord, if_neg h]
      rw [List.pairwise_append]
      refine ⟨hp, List.pairwise_singleton _ _, ?_⟩
      intro e he x hx
      simp only [List.mem_singleton] at hx
      subst hx
      show lowerStr e.word ≠ lowerStr w
      intro heq
      rw [List.any_eq_true] at h
      exact h ⟨e, he, by rw [heq]; exact beq_self_eq_true (lowerStr w)⟩

/-- Witness for C7: one entry "Apple" already present, adding "apple"
and then "APPLE". -/
theorem addWrongWord_dedup_witness :
    (addWrongWord "t1" "apple" "m" "a"
        [{ word := "Apple", meaning := "m0", userAnswer := "a0",
           addedAt := "t0", reviewCount := 0 }]
      = [{ word := "Apple", meaning := "m0", userAnswer := "a0",
           addedAt := "t0", reviewCount := 0 }])
    ∧ (addWrongWord "t2" "APPLE" "m2" "a2"
        (addWrongWord "t1" "apple" "m" "a"
          [{ word := "Apple", meaning := "m0", userAnswer := "a0",
             addedAt := "t0", reviewCount := 0 }])
      = addWrongWord "t1" "apple" "m" "a"
          [{ word := "Apple", meaning := "m0", userAnswer := "a0",
             addedAt := "t0", reviewCount := 0 }])
    ∧ (addWrongWord "t1" "apple" "m" "a"
        [{ word := "Apple", meaning := "m0", userAnswer := "a0",
           addedAt := "t0", reviewCount := 0 }]).Pairwise
          (fun e1 e2 => lowerStr e1.word ≠ lowerStr e2.word) :=
  ⟨(addWrongWord_dedup "t1" "t2" "m" "m2" "a" "a2" "apple" "APPLE"
      [{ word := "Apple", meaning := "m0", userAnswer := "a0",
         addedAt := "t0", reviewCount := 0 }]).1 (by decide),
   (addWrongWord_dedup "t1" "t2" "m" "m2" "a" "a2" "apple" "APPLE"
      [{ word := "Apple", meaning := "m0", userAnswer := "a0",
         addedAt := "t0", reviewCount := 0 }]).2.1 (by decide),
   (addWrongWord_dedup "t1" "t2" "m" "m2" "a" "a2" "apple" "APPLE"
      [{ word := "Apple", meaning := "m0", userAnswer := "a0",
         addedAt := "t0", reviewCount := 0 }]).2.2 (by decide)⟩

lemma markAnswerP1_eq (st : AppState) (d : String) (c : Bool)
    (hres : st.currentIndex < st.results.length) :
    markAnswerP1 d c st =
      if st.currentIndex < st.items.length - 1 then
        some { st with
               results := st.results.set st.currentIndex
                 ({ st.results[st.currentIndex]! with isCorrect := some c }),
               currentIndex := st.currentIndex + 1 }
      else
        some (finishDictation d { st with
          results := st.results.set st.currentIndex
            ({ st.results[st.currentIndex]! with isCorrect := some c }) }) := by
  have hg : st.results[st.currentIndex]? = some st.results[st.currentIndex]! := by
    rw [getElem!_pos st.results st.currentIndex hres]
    exact List.getElem?_eq_getElem hres
  simp only [markAnswerP1, hg]

lemma markAnswerP1_results (st : AppState) (d : String) (c : Bool)
    (r0 : QuizResult) (hres : st.results[st.currentIndex]? = some r0) :
    ∃ st', markAnswerP1 d c st = some st'
      ∧ st'.results[st.currentIndex]? = some { r0 with isCorrect := some c } := by
  have hlen : st.currentIndex < st.results.length := by
    obtain ⟨h, -⟩ := List.getElem?_eq_some_iff.mp hres
    exact h
  simp only [markAnswerP1, hres]
  by_cases hlt : st.currentIndex < st.items.length - 1
  · rw [if_pos hlt]
    refine ⟨_, rfl, ?_⟩
    show (st.results.set st.currentIndex _)[st.currentIndex]? = _
    exact List.getElem?_set_self hlen
  · rw [if_neg hlt]
    refine ⟨_, rfl, ?_⟩
    rw [finishDictation_results]
    show (st.results.set st.currentIndex _)[st.currentIndex]? = _
    exact List.getElem?_set_self hlen

/-- C6: checkAnswer records the whitespace-trimmed typed input as the
current result userAnswer and sets isCorrect to true exactly when the
trimmed input equals the target item text under case-insensitive
comparison. -/
theorem checkAnswer_trims_and_compares (st : AppState) (d input : String)
    (r0 : QuizResult) (item : QuizItem)
    (hres : st.results[st.currentIndex]? = some r0)
    (hit : st.items[st.currentIndex]? = some item) :
    ∃ st', checkAnswer d input st = some st'
      ∧ st'.results[st.currentIndex]? =
          some { r0 with
                 userAnswer := trimStr input,
                 isCorrect := some (lowerStr (trimStr input) == lowerStr item.text) }
      ∧ ((lowerStr (trimStr input) == lowerStr item.text) = true
           ↔ lowerStr (trimStr input) = lowerStr item.text) := by
  have hlen : st.currentIndex < st.results.length := by
    obtain ⟨h, -⟩ := List.getElem?_eq_some_iff.mp hres
    exact h
  simp only [checkAnswer, hres, hit]
  obtain ⟨st', hm, hr⟩ :=
    markAnswerP1_results
      { st with results := st.results.set st.currentIndex
                             ({ r0 with userAnswer := trimStr input }) }
      d (lowerStr (trimStr input) == lowerStr item.text)
      { r0 with userAnswer := trimStr input }
      (List.getElem?_set_self hlen)
  exact ⟨st', hm, hr, by simp⟩

/-- Witness for C6: typing "  Apple " against the target "apple" is
trimmed to "Apple" and auto-marked correct. -/
theorem checkAnswer_trims_and_compares_witness :
    ((startDictation "words" { baseState with
        words := [{ text := "apple", meaning := "", type := "word" }] }).results[
      (startDictation "words" { baseState with
        words := [{ text := "apple", meaning := "", type := "word" }] }).currentIndex]? =
        some { text := "apple", meaning := "", userAnswer := "", isCorrect := none }
      ∧ (startDictation "words" { baseState with
        words := [{ text := "apple", meaning := "", type := "word" }] }).items[
      (startDictation "words" { baseState with
        words := [{ text := "apple", meaning := "", type := "word" }] }).currentIndex]? =
        some { text := "apple", meaning := "", type := "word" })
    ∧ ∃ st', checkAnswer "d" "  Apple "
          (startDictation "words" { baseState with
            words := [{ text := "apple", meaning := "", type := "word" }] }) = some st'
        ∧ st'.results[(startDictation "words" { baseState with
            words := [{ text := "apple", meaning := "", type := "word" }] }).currentIndex]? =
            some { { text := "apple", meaning := "", userAnswer := "",
                     isCorrect := none : QuizResult } with
                   userAnswer := trimStr "  Apple ",
                   isCorrect := some (lowerStr (trimStr "  Apple ")
                      == lowerStr ({ text := "apple", meaning := "", type := "word" : QuizItem }).text) }
        ∧ ((lowerStr (trimStr "  Apple ")
              == lowerStr ({ text := "apple", meaning := "", type := "word" : QuizItem }).text) = true
             ↔ lowerStr (trimStr "  Apple ")
              = lowerStr ({ text := "apple", meaning := "", type := "word" : QuizItem }).text) :=
  ⟨⟨by decide, by decide⟩,
    checkAnswer_trims_and_compares
      (startDictation "words" { baseState with
        words := [{ text := "apple", meaning := "", type := "word" }] })
      "d" "  Apple "
      { text := "apple", meaning := "", userAnswer := "", isCorrect := none }
      { text := "apple", meaning := "", type := "word" }
      (by decide) (by decide)⟩

lemma hist_trunc_len (l : List DayEntry) :
    (if 30 < l.length then l.drop (l.length - 30) else l).length = min l.length 30 := by
  split
  · rw [List.length_drop]
    omega
  · omega

lemma recordSession_history_eq (t : String) (c w : Nat) (st : Statistics) :
    (recordSession t c w st).history =
      (fun l => if 30 < l.length then l.drop (l.length - 30) else l)
        (if st.history.any (fun h => h.date == t) then
           updateFirst (fun h => h.date == t)
             (fun h => { h with correct := h.correct + c, wrong := h.wrong + w })
             st.history
         else st.history ++ [⟨t, c, w⟩]) := rfl

lemma recordSession_history_len (t : String) (c w : Nat) (st : Statistics) :
    (recordSession t c w st).history.length =
      min (if st.history.any (fun h => h.date == t) then st.history.length
           else st.history.length + 1) 30 := by
  rw [recordSession_history_eq]
  by_cases h : (st.history.any fun h => h.date == t) = true
  · simp only [h, if_true]
    rw [hist_trunc_len, length_updateFirst]
  · have h2 : (st.history.any fun h => h.date == t) = false := by
      simpa using h
    simp only [h2, Bool.false_eq_true, if_false]
    rw [hist_trunc_len]
    simp

lemma recordSession_history_le (t : String) (c w : Nat) (st : Statistics) :
    (recordSession t c w st).history.length ≤ 30 := by
  rw [recordSession_history_len]
  omega

lemma foldl_recordSession_le :
    ∀ (calls : List (String × Nat × Nat)) (st : Statistics), calls ≠ [] →
      (calls.foldl (fun s p => recordSession p.1 p.2.1 p.2.2 s) st).history.length ≤ 30
  | [], _, h => absurd rfl h
  | [p], st, _ => by
      simpa using recordSession_history_le p.1 p.2.1 p.2.2 st
  | p :: q :: qs, st, _ => by
      simp only [List.foldl_cons]
      exact foldl_recordSession_le (q :: qs) (recordSession p.1 p.2.1 p.2.2 st) (by simp)

/-- C8: recordSession increments the lifetime counters, merges into the
history entry dated today when one exists (length then min(len,30)) or
appends a new entry otherwise (length then min(len+1,30)), and after
one call - hence after any non-empty sequence of calls - the history
holds at most 30 entries. -/
theorem recordSession_bounds (t : String) (c w : Nat) (st : Statistics)
    (calls : List (String × Nat × Nat)) (hne : calls ≠ []) :
    ((recordSession t c w st).sessions = st.sessions + 1
      ∧ (recordSession t c w st).correct = st.correct + c
      ∧ (recordSession t c w st).wrong = st.wrong + w
      ∧ (recordSession t c w st).history.length ≤ 30
      ∧ ((st.history.any fun h => h.date == t) = true →
          (recordSession t c w st).history.length = min st.history.length 30)
      ∧ ((st.history.any fun h => h.date == t) = false →
          (recordSession t c w st).history.length = min (st.history.length + 1) 30))
    ∧ (calls.foldl (fun s p => recordSession p.1 p.2.1 p.2.2 s) st).history.length ≤ 30 := by
  refine ⟨⟨rfl, rfl, rfl, recordSession_history_le t c w st, ?_, ?_⟩,
    foldl_recordSession_le calls st hne⟩
  · intro h
    rw [recordSession_history_len, if_pos h]
  · intro h
    rw [recordSession_history_len, if_neg (by simp [h])]

/-- Witness for C8 at a concrete empty statistics document and a single
recorded call. -/
theorem recordSession_bounds_witness :
    (([("a", 1, 2)] : List (String × Nat × Nat)) ≠ [])
    ∧ (((recordSession "a" 1 2 ⟨0, 0, 0, []⟩).sessions = (0 : Nat) + 1
      ∧ (recordSession "a" 1 2 ⟨0, 0, 0, []⟩).correct = (0 : Nat) + 1
      ∧ (recordSession "a" 1 2 ⟨0, 0, 0, []⟩).wrong = (0 : Nat) + 2
      ∧ (recordSession "a" 1 2 ⟨0, 0, 0, []⟩).history.length ≤ 30
      ∧ ((([] : List DayEntry).any fun h => h.date == "a") = true →
          (recordSession "a" 1 2 ⟨0, 0, 0, []⟩).history.length = min ([] : List DayEntry).length 30)
      ∧ ((([] : List DayEntry).any fun h => h.date == "a") = false →
          (recordSession "a" 1 2 ⟨0, 0, 0, []⟩).history.length = min (([] : List DayEntry).length + 1) 30))
    ∧ (([("a", 1, 2)] : List (String × Nat × Nat)).foldl
        (fun s p => recordSession p.1 p.2.1 p.2.2 s) ⟨0, 0, 0, []⟩).history.length ≤ 30) :=
  ⟨by decide, recordSession_bounds "a" 1 2 ⟨0, 0, 0, []⟩ [("a", 1, 2)] (by decide)⟩

/-- A state with prior session fields set, no words but one sentence:
the startDictation("words") call on it must be rejected. -/
def staleState : AppState :=
  { baseState with
    sentences := [dogItem], items := [catItem], dictationMode := "sentences" }

/-- C9 counterexample: with an empty word list, a prior item list and
dictationMode "sentences", the rejected startDictation("words") call of
part_001 still overwrites items (to the empty list) and dictationMode
(to "words"), while appending the rejection alert: the claim that the
session items and mode are unchanged after a rejected attempt is false
on this variant. -/
theorem startDictation_empty_mutates_cex :
    (startDictation "words" staleState).items ≠ staleState.items
    ∧ (startDictation "words" staleState).dictationMode ≠ staleState.dictationMode
    ∧ (startDictation "words" staleState).alerts = ["沒有可用的項目！"] :=
  ⟨by decide, by decide, by decide⟩

/-- C9 amended: an empty-list start attempt is rejected synchronously
with a user-visible message and leaves results and currentIndex
unchanged; the app.js startDictationFromSelection variant mutates
nothing but the alert, while the part_001 startDictation variant has
already overwritten items (now the empty mapped list) and dictationMode
before the check. -/
theorem startDictation_empty_reject (st : AppState) (mode : String)
    (h : modeItems mode st = []) :
    (startDictation mode st).results = st.results
    ∧ (startDictation mode st).currentIndex = st.currentIndex
    ∧ (startDictation mode st).items = []
    ∧ (startDictation mode st).dictationMode = mode
    ∧ (startDictation mode st).alerts = st.alerts ++ ["沒有可用的項目！"]
    ∧ startDictationFromSelection [] st
        = { st with alerts := st.alerts ++ ["請至少選擇一項！"] } := by
  have h0 : ({ st with dictationMode := mode, items := modeItems mode st } : AppState).items.length = 0 := by
    simp [h]
  rw [startDictation, if_pos h0]
  exact ⟨rfl, rfl, by simp [h], rfl, rfl, rfl⟩

/-- A state with one sentence and no words, for the C9 witness. -/
def noWordsState : AppState := { baseState with sentences := [dogItem] }

/-- Witness for the amended C9 at a concrete state with no words. -/
theorem startDictation_empty_reject_witness :
    (modeItems "words" noWordsState = [])
    ∧ ((startDictation "words" noWordsState).results = noWordsState.results
      ∧ (startDictation "words" noWordsState).currentIndex = noWordsState.currentIndex
      ∧ (startDictation "words" noWordsState).items = []
      ∧ (startDictation "words" noWordsState).dictationMode = "words"
      ∧ (startDictation "words" noWordsState).alerts
          = noWordsState.alerts ++ ["沒有可用的項目！"]
      ∧ startDictationFromSelection [] noWordsState
          = { noWordsState with alerts := noWordsState.alerts ++ ["請至少選擇一項！"] }) :=
  ⟨by decide, startDictation_empty_reject noWordsState "words" (by decide)⟩

/-- C10: starting wrong-word practice on a non-empty wrong-word list
increments every reviewCount by exactly one and leaves each entry word,
meaning, userAnswer and addedAt, as well as the list length and order,
unchanged. -/
theorem practiceWrongWords_increments (st : AppState)
    (hne : st.wrongWords ≠ []) :
    (practiceWrongWords st).wrongWords.length = st.wrongWords.length
    ∧ ∀ i, i < st.wrongWords.length →
        ((practiceWrongWords st).wrongWords[i]!.word = st.wrongWords[i]!.word
          ∧ (practiceWrongWords st).wrongWords[i]!.meaning = st.wrongWords[i]!.meaning
          ∧ (practiceWrongWords st).wrongWords[i]!.userAnswer = st.wrongWords[i]!.userAnswer
          ∧ (practiceWrongWords st).wrongWords[i]!.addedAt = st.wrongWords[i]!.addedAt
          ∧ (practiceWrongWords st).wrongWords[i]!.reviewCount
              = st.wrongWords[i]!.reviewCount + 1) := by
  have hlen0 : ¬ st.wrongWords.length = 0 := by
    simpa [List.length_eq_zero] using hne
  have hpw : (practiceWrongWords st).wrongWords =
      st.wrongWords.map fun w => { w with reviewCount := w.reviewCount + 1 } := by
    rw [practiceWrongWords, if_neg hlen0]
  constructor
  · rw [hpw]
    exact List.length_map _ _
  · intro i hi
    have hlt : i < (st.wrongWords.map fun w : WrongWordEntry =>
        ({ w with reviewCount := w.reviewCount + 1 } : WrongWordEntry)).length := by
      simpa using hi
    rw [hpw, getElem!_pos (st.wrongWords.map fun w : WrongWordEntry =>
        ({ w with reviewCount := w.reviewCount + 1 } : WrongWordEntry)) i hlt,
      getElem!_pos st.wrongWords i hi, List.getElem_map]
    exact ⟨rfl, rfl, rfl, rfl, rfl⟩

/-- A concrete wrong-word entry for the C10 witness. -/
def wEntry : WrongWordEntry :=
  { word := "w", meaning := "m", userAnswer := "a", addedAt := "t", reviewCount := 3 }

/-- A state holding one wrong word, for the C10 witness. -/
def oneWrongState : AppState := { baseState with wrongWords := [wEntry] }

/-- Witness for C10 at a concrete one-entry wrong-word list. -/
theorem practiceWrongWords_increments_witness :
    (oneWrongState.wrongWords ≠ [])
    ∧ ((practiceWrongWords oneWrongState).wrongWords.length
          = oneWrongState.wrongWords.length
      ∧ ∀ i, i < oneWrongState.wrongWords.length →
        ((practiceWrongWords oneWrongState).wrongWords[i]!.word
            = oneWrongState.wrongWords[i]!.word
          ∧ (practiceWrongWords oneWrongState).wrongWords[i]!.meaning
            = oneWrongState.wrongWords[i]!.meaning
          ∧ (practiceWrongWords oneWrongState).wrongWords[i]!.userAnswer
            = oneWrongState.wrongWords[i]!.userAnswer
          ∧ (practiceWrongWords oneWrongState).wrongWords[i]!.addedAt
            = oneWrongState.wrongWords[i]!.addedAt
          ∧ (practiceWrongWords oneWrongState).wrongWords[i]!.reviewCount
            = oneWrongState.wrongWords[i]!.reviewCount + 1)) :=
  ⟨by decide, practiceWrongWords_increments oneWrongState (by decide)⟩

end Dictation
